import Mathlib

/-!
Verification of the TimeBandit core (csmangum/TimeBandit) against its
natural-language specification.

The Python sources under `bandit/` are shallowly embedded below:

* `bandit/state.py`  — `State`, `ObjectState` and the second `Object` class
  (here `SObj`, to avoid a clash with the `Object` of `bandit/object.py`);
* `bandit/object.py` — the simulated `Object` (here `Obj`), its `Clock` and
  `Identity` collaborators;
* `bandit/graph.py`  — the `Graph` (a `networkx.DiGraph` subclass) and its
  membership / update operations, together with `bandit/space.py`'s `Space`;

Python exceptions are modelled with `Except PyErr`; stateful methods return
the mutated object next to their result.  `bandit/clock.py`,
`bandit/identity.py`, `bandit/ticker.py` and the `TemporalState` name are
referenced by the sources but absent from the repository snapshot; those
collaborators are modelled from the specification and are marked
`Modelled from the spec:` in their doc comments.
-/

/-! ## Python error model and the temporal-id format -/

/-- Kinds of Python exceptions that the embedded code can raise. -/
inductive PyErr where
  | typeError
  | attributeError
  | networkXError
  | valueError
  deriving DecidableEq, Repr

/-- The temporal-identity format used by the sources: the Python f-string
`f"{root}.{cycle}.{step}"` of `Object.encode_self` in `bandit/state.py`
(and, per spec §4.2, of `Identity.refresh`). -/
def temporalFormat (root : String) (cycle step : Nat) : String :=
  root ++ "." ++ Nat.repr cycle ++ "." ++ Nat.repr step

/-! ## Embedding of `bandit/state.py` -/

/-- `State.__init__(self, variables)` of `bandit/state.py`: `variables` is a
required positional parameter; a call that omits it raises `TypeError`
(Python call binding).  On success it records the variables' keys in
`attr_list` and sets each as an attribute (returned here as the key list). -/
def State.init (varsArg : Option (List (String × String))) :
    Except PyErr (List String) :=
  match varsArg with
  | none => .error .typeError
  | some vs => .ok (vs.map Prod.fst)

/-- The attribute record an `ObjectState` instance would carry, were its
constructor to succeed. -/
structure ObjectStateV where
  root_id : String
  temporal_id : String
  cycle : Nat
  step : Nat
  steps_per_cycle : Nat
  deriving DecidableEq, Repr

/-- `ObjectState.__init__` of `bandit/state.py`: it first calls
`super().__init__()` — that is, `State.init` with no `variables` argument —
and only then would set its own attributes. -/
def ObjectState.init (root_id temporal_id : String)
    (cycle step steps_per_cycle : Nat) : Except PyErr ObjectStateV :=
  (State.init none).map fun _ =>
    { root_id := root_id, temporal_id := temporal_id, cycle := cycle,
      step := step, steps_per_cycle := steps_per_cycle }

/-- The `Object` class of `bandit/state.py` (named `SObj` here because
`bandit/object.py` also defines an `Object`).  Fields are its instance
attributes after `__init__`; the `Ticker` field `tic` is a pure function of
`(_cycle, _step, steps_per_cycle)` and is not stored separately. -/
structure SObj where
  steps_per_cycle : Nat
  cycleV : Nat
  stepV : Nat
  root_id : String
  temporal_id : String
  deriving DecidableEq, Repr

/-- Modelled from the spec: `Ticker.tok` (`bandit/ticker.py` is absent from
the repository snapshot).  Per spec §4.1 a clock advance increments `step`;
when `step` would reach the steps-per-cycle bound it resets to `0` and the
cycle increments.  `tok` yields the advanced `(cycle, step)` pair, which
`Object.update` in `bandit/state.py` assigns to `(self._cycle, self._step)`. -/
def Ticker.tok (cycle step steps_per_cycle : Nat) : Nat × Nat :=
  if step + 1 = steps_per_cycle then (cycle + 1, 0) else (cycle, step + 1)

/-- `Object.encode_self` of `bandit/state.py`:
`self.temporal_id = f"{self.root_id}.{self._cycle}.{self._step}"`. -/
def SObj.encode_self (o : SObj) : SObj :=
  { o with temporal_id := temporalFormat o.root_id o.cycleV o.stepV }

/-- `Object.id` of `bandit/state.py`: when `encode` is true it first runs
`encode_self`, then returns `self.temporal_id`.  The mutated object is
returned next to the result. -/
def SObj.id (o : SObj) (encode : Bool) : SObj × String :=
  let o' := if encode then o.encode_self else o
  (o', o'.temporal_id)

/-- The `state` property of the `Object` class of `bandit/state.py`: it
constructs `ObjectState(root_id, temporal_id, _cycle, _step,
steps_per_cycle)`. -/
def SObj.stateProp (o : SObj) : Except PyErr ObjectStateV :=
  ObjectState.init o.root_id o.temporal_id o.cycleV o.stepV o.steps_per_cycle

/-- `Object.update` of `bandit/state.py`: first
`self._cycle, self._step = self.tic.tok`, then `return self.state`. -/
def SObj.update (o : SObj) : SObj × Except PyErr ObjectStateV :=
  let p := Ticker.tok o.cycleV o.stepV o.steps_per_cycle
  let o' := { o with cycleV := p.1, stepV := p.2 }
  (o', o'.stateProp)

/-! ## Embedding of `bandit/object.py` and its collaborators -/

/-- Modelled from the spec: `Clock` (`bandit/clock.py` is absent from the
repository snapshot).  Spec §3: `cycle ≥ 1`, `step ∈ [0, step_size)`;
created at `cycle = 1, step = 0`. -/
structure Clock where
  step_size : Nat
  cycle : Nat
  step : Nat
  deriving DecidableEq, Repr

/-- Modelled from the spec: `Clock.update` (the spec's `advance()`, §3/§4.1):
the step increments; when advancing would make `step == step_size`, `step`
resets to `0` and `cycle` increments by one. -/
def Clock.update (c : Clock) : Clock :=
  if c.step + 1 = c.step_size then { c with cycle := c.cycle + 1, step := 0 }
  else { c with step := c.step + 1 }

/-- Modelled from the spec: `Identity` (`bandit/identity.py` is absent from
the repository snapshot).  Spec §3: a `root` string assigned once and a
`temporal` string recomputed every tick. -/
structure Identity where
  root : String
  temporal : String
  deriving DecidableEq, Repr

/-- Modelled from the spec: `Identity.update` (the spec's `refresh`, §4.2),
as called by `Object.update` in `bandit/object.py` with the object's clock:
recomputes `temporal` from `(root, cycle, step)` using the spec's format
`"{root}.{cycle}.{step}"`. -/
def Identity.update (i : Identity) (c : Clock) : Identity :=
  { i with temporal := temporalFormat i.root c.cycle c.step }

/-- The dictionary returned by the default `Object.state` body of
`bandit/object.py` (the snapshot envelope). -/
structure Snap where
  step_size : Nat
  root_id : String
  temporal_id : String
  cycle : Nat
  step : Nat
  deriving DecidableEq, Repr

/-- The `Object` of `bandit/object.py`: its clock, identity, the
behaviour-specific state `B` mutated by the abstract `_update`, and the
snapshot history kept by the `TemporalObject` base class. -/
structure Obj (B : Type) where
  step_size : Nat
  clock : Clock
  id : Identity
  behaviorState : B
  history : List Snap
  deriving DecidableEq, Repr

/-- Modelled from the spec: the `root_id` attribute that `bandit/graph.py`
reads from an object (spec keys every object by its root identity). -/
def Obj.root_id (o : Obj B) : String :=
  o.id.root

/-- `Object.state` of `bandit/object.py` (default body): the dictionary
`{step_size, root_id, temporal_id, cycle, step}` read from the current
clock and identity. -/
def Obj.stateDict (o : Obj B) : Snap :=
  { step_size := o.step_size, root_id := o.id.root,
    temporal_id := o.id.temporal, cycle := o.clock.cycle,
    step := o.clock.step }

/-- `Object.update` of `bandit/object.py`.  The body runs, in source order:
`self._update()` (the abstract behaviour, which as a method can observe the
object's current clock and identity and may raise), then
`self.clock.update()`, then `self.id.update(self.clock)`, and finally
`super().update(self.state(), self.id.temporal)` — modelled from the spec
(§2, §4.4) as appending the snapshot to the history and returning it.
A raise inside `_update` propagates before any of the later lines run. -/
def Obj.update (upd : Clock → Identity → B → Except PyErr B) (o : Obj B) :
    Obj B × Except PyErr Snap :=
  match upd o.clock o.id o.behaviorState with
  | .error e => (o, .error e)
  | .ok b =>
    let o1 := { o with behaviorState := b }
    let o2 := { o1 with clock := o1.clock.update }
    let o3 := { o2 with id := o2.id.update o2.clock }
    let snap := o3.stateDict
    ({ o3 with history := o3.history ++ [snap] }, .ok snap)

/-! ## Embedding of `bandit/graph.py` and `bandit/space.py` -/

/-- A `networkx` node key.  Python dict keys compare by `==`; a string key
never equals an `Object` instance (no custom `__eq__`), so the two kinds of
keys the sources use are kept apart by constructor. -/
inductive PyKey (O : Type) where
  | str (s : String)
  | obj (o : O)
  deriving DecidableEq, Repr

/-- A `Graph` instance of `bandit/graph.py`: the `networkx.DiGraph` node
dictionary (keys in insertion order, each holding the `object` attribute)
and the `object_states` attribute.  Edges are never touched by the embedded
operations and are omitted. -/
structure GraphSt (O : Type) where
  nodes : List (PyKey O × O)
  object_states : List (String × Snap)
  deriving DecidableEq, Repr

/-- `networkx.DiGraph.add_node(k, object=o)`: if the key is already present
the node's attributes are updated in place (the stored object is replaced);
otherwise a new node is appended.  No error is ever raised. -/
def addNode (g : GraphSt O) (k : PyKey O) (o : O) [DecidableEq O] : GraphSt O :=
  if k ∈ g.nodes.map Prod.fst then
    { g with nodes := g.nodes.map fun p => if p.1 = k then (k, o) else p }
  else
    { g with nodes := g.nodes ++ [(k, o)] }

/-- `Graph.add_object` of `bandit/graph.py`:
`self.add_node(object.root_id, object=object)`. -/
def Graph.add_object [DecidableEq O] (rootId : O → String) (g : GraphSt O)
    (o : O) : GraphSt O :=
  addNode g (.str (rootId o)) o

/-- `networkx.DiGraph.remove_node(k)`: removes the node if present,
otherwise raises `NetworkXError` ("node not in graph"). -/
def removeNode [DecidableEq O] (g : GraphSt O) (k : PyKey O) :
    Except PyErr (GraphSt O) :=
  if k ∈ g.nodes.map Prod.fst then
    .ok { g with nodes := g.nodes.filter fun p => p.1 != k }
  else
    .error .networkXError

/-- `Graph.remove_object` of `bandit/graph.py`: `self.remove_node(object)` —
note that the *object itself*, not its root id, is passed as the node key. -/
def Graph.remove_object [DecidableEq O] (g : GraphSt O) (o : O) :
    Except PyErr (GraphSt O) :=
  removeNode g (.obj o)

/-- Python dict assignment `d[k] = v`: overwrite if the key exists, else
append. -/
def dictInsert (d : List (String × Snap)) (k : String) (v : Snap) :
    List (String × Snap) :=
  if k ∈ d.map Prod.fst then
    d.map fun p => if p.1 = k then (k, v) else p
  else
    d ++ [(k, v)]

/-- The loop body of `Graph.update` of `bandit/graph.py`: iterate the owned
objects in node order, run `object.update()` on each, and store the result
under `object.root_id` in the accumulating `object_states` dict.  A raise
inside an object's `update` propagates immediately: the partially filled
dict and the already-mutated earlier objects are kept, later objects are
never stepped. -/
def stepObjects (rootId : O → String) (upd : O → O × Except PyErr Snap) :
    List (PyKey O × O) → List (String × Snap) →
      List (PyKey O × O) × List (String × Snap) × Option PyErr
  | [], acc => ([], acc, none)
  | (k, o) :: rest, acc =>
    let r := upd o
    match r.2 with
    | .error e => ((k, r.1) :: rest, acc, some e)
    | .ok snap =>
      let res := stepObjects rootId upd rest (dictInsert acc (rootId r.1) snap)
      ((k, r.1) :: res.1, res.2.1, res.2.2)

/-- `Graph.update` of `bandit/graph.py`: `self.object_states = {}`, then the
loop over `self.objects`, then `return self.state` — the property returning
`{"object_count": len(self.object_states), "object_states":
self.object_states}`, modelled as the pair (count, entries).  The mutated
graph is returned next to the outcome. -/
def Graph.update (rootId : O → String) (upd : O → O × Except PyErr Snap)
    (g : GraphSt O) : GraphSt O × Except PyErr (Nat × List (String × Snap)) :=
  let res := stepObjects rootId upd g.nodes []
  let g' : GraphSt O := { nodes := res.1, object_states := res.2.1 }
  match res.2.2 with
  | some e => (g', .error e)
  | none => (g', .ok (g'.object_states.length, g'.object_states))

/-- Modelled from the spec: `TemporalState`, imported by `bandit/graph.py`
from `bandit.state` but defined nowhere in the repository snapshot; treated
as a collaborator whose construction succeeds with an opaque value. -/
def TemporalState.init : Except PyErr Unit :=
  .ok ()

/-- The names defined on class `Graph` of `bandit/graph.py` as properties
with a getter and no setter: `objects` and `state`. -/
def graphReadOnlyProps : List String :=
  ["objects", "state"]

/-- Python instance-attribute assignment `self.name = v` on a `Graph`:
a class-level property without a setter is a data descriptor whose `__set__`
raises `AttributeError`; any other name is stored on the instance. -/
def graphSetAttr (name : String) : Except PyErr Unit :=
  if name ∈ graphReadOnlyProps then .error .attributeError else .ok ()

/-- `Graph.__init__` of `bandit/graph.py`: `super().__init__()` (an empty
`DiGraph`), then `self.object_states = {}`, then
`self.state = TemporalState()` — the right-hand side is evaluated first,
then the assignment to `state` is attempted. -/
def Graph.init (O : Type) : Except PyErr (GraphSt O) := do
  let _ ← graphSetAttr "object_states"
  let _ ← TemporalState.init
  let _ ← graphSetAttr "state"
  pure { nodes := [], object_states := [] }

/-- `Space.__init__` of `bandit/space.py`: `super().__init__()` only. -/
def Space.init (O : Type) : Except PyErr (GraphSt O) :=
  Graph.init O

/-! ## Auxiliary definitions for the proofs

`temporalFormat` interpolates `Nat.repr`; `charVal` and `listVal` interpret
a produced digit list back into the number it denotes. -/

/-- Numeric value of a decimal digit character. -/
def charVal (c : Char) : Nat := c.toNat - 48

/-- Value denoted by a most-significant-first digit list. -/
def listVal (l : List Char) : Nat :=
  l.foldl (fun a c => 10 * a + charVal c) 0

/-- Strict lexicographic order on `(cycle, step)` pairs. -/
def pairLtLex (p q : Nat × Nat) : Prop :=
  p.1 < q.1 ∨ (p.1 = q.1 ∧ p.2 < q.2)

/-- A behaviour collaborator that records the clock it observes when
`_update` runs. -/
def obsBehavior : Clock → Identity → Option Clock → Except PyErr (Option Clock) :=
  fun c _ _ => .ok (some c)

/-- A concrete object with step size 2 at cycle 1, step 0. -/
def obsObj : Obj (Option Clock) :=
  { step_size := 2, clock := { step_size := 2, cycle := 1, step := 0 },
    id := { root := "r", temporal := "r.1.0" }, behaviorState := none,
    history := [] }

/-- Snapshot carried by a successful update outcome (placeholder on error). -/
def getOk (e : Except PyErr Snap) : Snap :=
  match e with
  | .ok s => s
  | .error _ =>
    { step_size := 0, root_id := "", temporal_id := "", cycle := 0, step := 0 }

/-- Decidable equality for `Except`, for evaluating outcomes on concrete
inputs. -/
instance {ε α : Type} [DecidableEq ε] [DecidableEq α] :
    DecidableEq (Except ε α) := fun a b =>
  match a, b with
  | .ok x, .ok y =>
    if h : x = y then .isTrue (h ▸ rfl)
    else .isFalse fun hh => h (Except.ok.inj hh)
  | .error x, .error y =>
    if h : x = y then .isTrue (h ▸ rfl)
    else .isFalse fun hh => h (Except.error.inj hh)
  | .ok _, .error _ => .isFalse fun hh => Except.noConfusion hh
  | .error _, .ok _ => .isFalse fun hh => Except.noConfusion hh

/-! ## Concrete objects and graphs for witnesses and counterexamples -/

/-- `Object.update` with an always-succeeding behaviour collaborator. -/
def okUpd : Obj Unit → Obj Unit × Except PyErr Snap :=
  Obj.update fun _ _ _ => .ok ()

/-- `Object.update` with a collaborator that raises exactly when the
behaviour state flag is set. -/
def flagUpd : Obj Bool → Obj Bool × Except PyErr Snap :=
  Obj.update fun _ _ b => if b then .error .valueError else .ok b

/-- A fresh object with root `"a"` and step size 2. -/
def objA : Obj Unit :=
  { step_size := 2, clock := { step_size := 2, cycle := 1, step := 0 },
    id := { root := "a", temporal := "a.1.0" }, behaviorState := (),
    history := [] }

/-- A fresh object with root `"b"` and step size 2. -/
def objB : Obj Unit :=
  { step_size := 2, clock := { step_size := 2, cycle := 1, step := 0 },
    id := { root := "b", temporal := "b.1.0" }, behaviorState := (),
    history := [] }

/-- A two-object graph whose objects both succeed. -/
def gAB : GraphSt (Obj Unit) :=
  { nodes := [(.str "a", objA), (.str "b", objB)], object_states := [] }

/-- A fresh object with root `"f"` whose collaborator raises under
`flagUpd`. -/
def objF : Obj Bool :=
  { step_size := 2, clock := { step_size := 2, cycle := 1, step := 0 },
    id := { root := "f", temporal := "f.1.0" }, behaviorState := true,
    history := [] }

/-- A fresh object with root `"g"` whose collaborator succeeds under
`flagUpd`. -/
def objG : Obj Bool :=
  { step_size := 2, clock := { step_size := 2, cycle := 1, step := 0 },
    id := { root := "g", temporal := "g.1.0" }, behaviorState := false,
    history := [] }

/-- A two-object graph whose first object fails and second succeeds. -/
def gFG : GraphSt (Obj Bool) :=
  { nodes := [(.str "f", objF), (.str "g", objG)], object_states := [] }

/-- An object with root `"r"` at its initial clock. -/
def objR1 : Obj Unit :=
  { step_size := 1, clock := { step_size := 1, cycle := 1, step := 0 },
    id := { root := "r", temporal := "r.1.0" }, behaviorState := (),
    history := [] }

/-- A different object sharing the root `"r"`. -/
def objR2 : Obj Unit :=
  { step_size := 1, clock := { step_size := 1, cycle := 5, step := 0 },
    id := { root := "r", temporal := "r.5.0" }, behaviorState := (),
    history := [] }

/-- A graph that already owns `objR1` under root `"r"`. -/
def gR : GraphSt (Obj Unit) :=
  { nodes := [(.str "r", objR1)], object_states := [] }

/-! ## Decimal representation lemmas

A decimal representation contains no character `'.'` and is injective. -/

theorem listVal_append_last (xs : List Char) (c : Char) :
    listVal (xs ++ [c]) = 10 * listVal xs + charVal c := by
  simp [listVal, List.foldl_append]

theorem digitChar_ne_dot : ∀ m, m < 10 → Nat.digitChar m ≠ '.' := by decide

theorem charVal_digitChar : ∀ m, m < 10 → charVal (Nat.digitChar m) = m := by
  decide

theorem toDigitsCore_append (fuel : Nat) :
    ∀ (n : Nat) (ds : List Char),
      Nat.toDigitsCore 10 fuel n ds = Nat.toDigitsCore 10 fuel n [] ++ ds := by
  induction fuel with
  | zero => intro n ds; simp [Nat.toDigitsCore]
  | succ fuel ih =>
    intro n ds
    simp only [Nat.toDigitsCore]
    by_cases h : n / 10 = 0
    · simp [h]
    · simp only [if_neg h]
      rw [ih (n / 10) (Nat.digitChar (n % 10) :: ds),
        ih (n / 10) [Nat.digitChar (n % 10)]]
      simp

theorem toDigitsCore_ne_dot (fuel : Nat) :
    ∀ (n : Nat) (ds : List Char), '.' ∉ ds →
      '.' ∉ Nat.toDigitsCore 10 fuel n ds := by
  induction fuel with
  | zero => intro n ds h; simpa [Nat.toDigitsCore] using h
  | succ fuel ih =>
    intro n ds h
    have hd : Nat.digitChar (n % 10) ≠ '.' :=
      digitChar_ne_dot _ (Nat.mod_lt _ (by decide))
    have hcons : '.' ∉ Nat.digitChar (n % 10) :: ds := by
      simp only [List.mem_cons]
      rintro (h1 | h1)
      · exact hd h1.symm
      · exact h h1
    simp only [Nat.toDigitsCore]
    by_cases h0 : n / 10 = 0
    · simpa [h0] using hcons
    · simpa [h0] using ih (n / 10) (Nat.digitChar (n % 10) :: ds) hcons

theorem toDigitsCore_val (fuel : Nat) :
    ∀ n, n < fuel → listVal (Nat.toDigitsCore 10 fuel n []) = n := by
  induction fuel with
  | zero => intro n h; exact absurd h (Nat.not_lt_zero n)
  | succ fuel ih =>
    intro n hn
    simp only [Nat.toDigitsCore]
    by_cases h0 : n / 10 = 0
    · have h10 : n < 10 := by omega
      have hc := charVal_digitChar n h10
      have hmod : n % 10 = n := Nat.mod_eq_of_lt h10
      simp [h0, listVal, hmod, hc]
    · have hlt : n / 10 < fuel := by omega
      simp only [if_neg h0]
      rw [toDigitsCore_append, listVal_append_last, ih _ hlt,
        charVal_digitChar _ (Nat.mod_lt _ (by decide))]
      omega

theorem repr_data (n : Nat) :
    (Nat.repr n).data = Nat.toDigitsCore 10 (n + 1) n [] := rfl

theorem listVal_repr (n : Nat) : listVal (Nat.repr n).data = n := by
  rw [repr_data]
  exact toDigitsCore_val (n + 1) n (Nat.lt_succ_self n)

theorem repr_injective {m n : Nat} (h : Nat.repr m = Nat.repr n) : m = n := by
  have h2 : listVal (Nat.repr m).data = listVal (Nat.repr n).data := by rw [h]
  rwa [listVal_repr, listVal_repr] at h2

theorem dot_not_mem_repr (n : Nat) : '.' ∉ (Nat.repr n).data := by
  rw [repr_data]
  exact toDigitsCore_ne_dot (n + 1) n [] (by simp)

theorem append_dot_inj :
    ∀ (a b c d : List Char), '.' ∉ a → '.' ∉ c →
      a ++ '.' :: b = c ++ '.' :: d → a = c ∧ b = d := by
  intro a
  induction a with
  | nil =>
    intro b c d _ hc h
    cases c with
    | nil => simpa using h
    | cons x xs =>
      exfalso
      simp only [List.nil_append, List.cons_append, List.cons.injEq] at h
      apply hc
      rw [← h.1]
      exact List.mem_cons_self '.' xs
  | cons y ys ih =>
    intro b c d ha hc h
    cases c with
    | nil =>
      exfalso
      simp only [List.cons_append, List.nil_append, List.cons.injEq] at h
      apply ha
      rw [h.1]
      exact List.mem_cons_self '.' ys
    | cons x xs =>
      simp only [List.cons_append, List.cons.injEq] at h
      obtain ⟨hyx, h2⟩ := h
      have ha' : '.' ∉ ys := fun hm => ha (List.mem_cons_of_mem _ hm)
      have hc' : '.' ∉ xs := fun hm => hc (List.mem_cons_of_mem _ hm)
      obtain ⟨h3, h4⟩ := ih b xs d ha' hc' h2
      exact ⟨by rw [hyx, h3], h4⟩

theorem temporalFormat_inj {r : String} {c s c' s' : Nat}
    (h : temporalFormat r c s = temporalFormat r c' s') : c = c' ∧ s = s' := by
  have hdot : ("." : String).data = ['.'] := rfl
  have hd := congrArg String.data h
  simp only [temporalFormat, String.data_append, hdot, List.append_assoc,
    List.singleton_append] at hd
  have h1 : (Nat.repr c).data ++ '.' :: (Nat.repr s).data
      = (Nat.repr c').data ++ '.' :: (Nat.repr s').data := by
    have := List.append_cancel_left hd
    simpa using this
  obtain ⟨hc, hs⟩ :=
    append_dot_inj _ _ _ _ (dot_not_mem_repr c) (dot_not_mem_repr c') h1
  constructor
  · have := congrArg listVal hc
    rwa [listVal_repr, listVal_repr] at this
  · have := congrArg listVal hs
    rwa [listVal_repr, listVal_repr] at this

/-! ## Claim C5 -/

/-- C5: recomputing the temporal identity (`encode_self`, or `id` with
`encode=True`) of an object with root id `r`, cycle `c` and step `s` sets —
and `id` returns — exactly the string `"r.c.s"`, a deterministic function of
root, cycle and step alone. -/
theorem c5_encode_self_temporal (o : SObj) :
    (o.encode_self).temporal_id
        = o.root_id ++ "." ++ Nat.repr o.cycleV ++ "." ++ Nat.repr o.stepV ∧
    (SObj.id o true).2
        = o.root_id ++ "." ++ Nat.repr o.cycleV ++ "." ++ Nat.repr o.stepV ∧
    (SObj.id o true).1.temporal_id
        = o.root_id ++ "." ++ Nat.repr o.cycleV ++ "." ++ Nat.repr o.stepV :=
  ⟨rfl, rfl, rfl⟩

/-! ## Claim C6 -/

/-- C6: for a fixed root, distinct `(cycle, step)` pairs yield distinct
temporal identity strings — both for the raw format and for `encode_self` of
`bandit/state.py` — and hence over any strictly `(cycle, step)`-lex
increasing sequence the produced temporal values are pairwise distinct. -/
theorem c6_temporal_distinct (r : String) :
    (∀ c s c' s' : Nat, (c, s) ≠ (c', s') →
        temporalFormat r c s ≠ temporalFormat r c' s') ∧
    (∀ o o' : SObj, o.root_id = r → o'.root_id = r →
        (o.cycleV, o.stepV) ≠ (o'.cycleV, o'.stepV) →
        (o.encode_self).temporal_id ≠ (o'.encode_self).temporal_id) ∧
    (∀ f : Nat → Nat × Nat, (∀ i j, i < j → pairLtLex (f i) (f j)) →
        ∀ i j, i ≠ j →
          temporalFormat r (f i).1 (f i).2 ≠ temporalFormat r (f j).1 (f j).2) := by
  have key : ∀ c s c' s' : Nat, (c, s) ≠ (c', s') →
      temporalFormat r c s ≠ temporalFormat r c' s' := by
    intro c s c' s' hne he
    obtain ⟨hc, hs⟩ := temporalFormat_inj he
    exact hne (by rw [hc, hs])
  have pairNe : ∀ p q : Nat × Nat, pairLtLex p q → (p.1, p.2) ≠ (q.1, q.2) := by
    intro p q hpq h
    rcases hpq with h1 | ⟨h1, h2⟩
    · have := congrArg Prod.fst h
      simp only at this
      omega
    · have := congrArg Prod.snd h
      simp only at this
      omega
  refine ⟨key, ?_, ?_⟩
  · intro o o' ho ho' hne
    have h1 : (o.encode_self).temporal_id = temporalFormat r o.cycleV o.stepV := by
      rw [← ho]; rfl
    have h2 : (o'.encode_self).temporal_id = temporalFormat r o'.cycleV o'.stepV := by
      rw [← ho']; rfl
    rw [h1, h2]
    exact key _ _ _ _ hne
  · intro f hf i j hij
    rcases Nat.lt_or_lt_of_ne hij with h | h
    · exact key _ _ _ _ (pairNe _ _ (hf i j h))
    · exact (key _ _ _ _ (pairNe _ _ (hf j i h))).symm

/-- Witness for C6 at root `"root"` and pairs `(1,0)`, `(1,1)`. -/
theorem c6_temporal_distinct_witness :
    temporalFormat "root" 1 0 ≠ temporalFormat "root" 1 1 :=
  (c6_temporal_distinct "root").1 1 0 1 1 (by decide)

/-! ## Claim C9 -/

/-- C9: every invocation of the `Graph` constructor (and hence of the
`Space` constructor) raises `AttributeError`: `__init__` assigns
`self.state = TemporalState()` while `state` is a getter-only property, so
no `Graph` is ever constructed through `__init__`. -/
theorem c9_graph_init_raises (O : Type) :
    Graph.init O = .error .attributeError ∧
    Space.init O = .error .attributeError :=
  ⟨rfl, rfl⟩

/-! ## Claim C10 -/

/-- C10: constructing `ObjectState` always raises `TypeError`, because
`ObjectState.__init__` calls `State.__init__()` without the required
`variables` argument; consequently the `state` property and the `update`
method of the `Object` class of `bandit/state.py` raise on every call. -/
theorem c10_objectstate_init_raises (r t : String) (c s spc : Nat) (o : SObj) :
    ObjectState.init r t c s spc = .error .typeError ∧
    SObj.stateProp o = .error .typeError ∧
    (SObj.update o).2 = .error .typeError :=
  ⟨rfl, rfl, rfl⟩

/-! ## Claim C1 -/

/-- Counterexample to C1 as stated: the claim puts the Clock advance before
the collaborator call, so the collaborator would observe the post-advance
Clock.  In the source, `Object.update` runs `self._update()` first: a
collaborator that records the clock it sees records the pre-advance value,
which differs from the post-advance clock of the updated object. -/
theorem c1_counterexample :
    (Obj.update obsBehavior obsObj).1.behaviorState
      ≠ some (Obj.update obsBehavior obsObj).1.clock := by
  decide

/-- C1 amended: one call to `Object.update` first asks the behaviour
collaborator `_update` — which observes the pre-advance Clock and Identity —
then advances the Clock, then refreshes the Identity's temporal id from the
post-advance `(cycle, step)`; the recorded snapshot and temporal identity
reflect the post-advance Clock state, but the collaborator does not. -/
theorem c1_update_order {B : Type} (upd : Clock → Identity → B → Except PyErr B)
    (o : Obj B) (b : B) (h : upd o.clock o.id o.behaviorState = .ok b) :
    Obj.update upd o =
      (let o' : Obj B :=
        { o with
          behaviorState := b
          clock := o.clock.update
          id := o.id.update o.clock.update }
       ({ o' with history := o.history ++ [o'.stateDict] }, .ok o'.stateDict)) := by
  simp only [Obj.update, h]

/-- Witness for the amended C1 on a concrete object and an always-succeeding
collaborator. -/
theorem c1_update_order_witness :
    Obj.update (fun (_ : Clock) (_ : Identity) (_ : Unit) => Except.ok ())
        { step_size := 2, clock := { step_size := 2, cycle := 1, step := 0 },
          id := { root := "r", temporal := "r.1.0" }, behaviorState := (),
          history := [] } =
      ({ step_size := 2, clock := { step_size := 2, cycle := 1, step := 1 },
         id := { root := "r", temporal := "r.1.1" }, behaviorState := (),
         history := [{ step_size := 2, root_id := "r", temporal_id := "r.1.1",
                       cycle := 1, step := 1 }] },
       .ok { step_size := 2, root_id := "r", temporal_id := "r.1.1",
             cycle := 1, step := 1 }) :=
  c1_update_order _ _ () rfl

/-! ## Claim C4 -/

/-- C4: if the behaviour collaborator `_update` raises during
`Object.update`, the error propagates out of `update` and the object is
left exactly as it was: Clock, Identity (and history) unchanged. -/
theorem c4_collaborator_error_transactional {B : Type}
    (upd : Clock → Identity → B → Except PyErr B) (o : Obj B) (e : PyErr)
    (h : upd o.clock o.id o.behaviorState = .error e) :
    Obj.update upd o = (o, .error e) := by
  simp only [Obj.update, h]

/-- Witness for C4 on a concrete object and an always-raising collaborator. -/
theorem c4_collaborator_error_transactional_witness :
    Obj.update (fun (_ : Clock) (_ : Identity) (_ : Unit) =>
        (Except.error .valueError : Except PyErr Unit))
        { step_size := 2, clock := { step_size := 2, cycle := 1, step := 0 },
          id := { root := "r", temporal := "r.1.0" }, behaviorState := (),
          history := [] } =
      ({ step_size := 2, clock := { step_size := 2, cycle := 1, step := 0 },
         id := { root := "r", temporal := "r.1.0" }, behaviorState := (),
         history := [] }, .error .valueError) :=
  c4_collaborator_error_transactional _ _ .valueError rfl

/-! ## Graph update lemmas -/

theorem stepObjects_all_ok {O : Type} (rootId : O → String)
    (upd : O → O × Except PyErr Snap) :
    ∀ (nodes : List (PyKey O × O)) (acc : List (String × Snap)),
      (∀ p ∈ nodes, ((upd p.2).2).isOk = true) →
      (∀ p ∈ nodes, rootId (upd p.2).1 ∉ acc.map Prod.fst) →
      (nodes.map fun p => rootId (upd p.2).1).Nodup →
      stepObjects rootId upd nodes acc =
        (nodes.map fun p => (p.1, (upd p.2).1),
         acc ++ (nodes.map fun p => (rootId (upd p.2).1, getOk (upd p.2).2)),
         none) := by
  intro nodes
  induction nodes with
  | nil => intro acc _ _ _; simp [stepObjects]
  | cons hd tl ih =>
    intro acc hok hdisj hnd
    obtain ⟨k, o⟩ := hd
    have hok0 : ((upd o).2).isOk = true := hok (k, o) (List.mem_cons_self _ _)
    obtain ⟨snap, hsnap⟩ : ∃ s, (upd o).2 = .ok s := by
      cases hh : (upd o).2 with
      | ok s => exact ⟨s, rfl⟩
      | error e => rw [hh] at hok0; simp [Except.isOk, Except.toBool] at hok0
    have hnotin : rootId (upd o).1 ∉ acc.map Prod.fst :=
      hdisj (k, o) (List.mem_cons_self _ _)
    have hins : dictInsert acc (rootId (upd o).1) snap
        = acc ++ [(rootId (upd o).1, snap)] := by
      simp [dictInsert, hnotin]
    have hndt := hnd
    simp only [List.map_cons, List.nodup_cons] at hndt
    have ih2 := ih (acc ++ [(rootId (upd o).1, snap)])
      (fun p hp => hok p (List.mem_cons_of_mem _ hp))
      (by
        intro p hp
        simp only [List.map_append, List.mem_append, List.map_cons,
          List.map_nil, List.mem_singleton, not_or]
        refine ⟨hdisj p (List.mem_cons_of_mem _ hp), ?_⟩
        intro hbad
        exact hndt.1 (by
          rw [← hbad]
          exact List.mem_map_of_mem _ hp))
      hndt.2
    simp only [stepObjects, hsnap, hins, ih2]
    simp [hsnap, getOk, List.append_assoc]

theorem stepObjects_err {O : Type} (rootId : O → String)
    (upd : O → O × Except PyErr Snap) :
    ∀ (pre : List (PyKey O × O)) (x : PyKey O × O) (post : List (PyKey O × O))
      (acc : List (String × Snap)) (e : PyErr),
      (∀ p ∈ pre, ((upd p.2).2).isOk = true) →
      (∀ p ∈ pre, rootId (upd p.2).1 ∉ acc.map Prod.fst) →
      (pre.map fun p => rootId (upd p.2).1).Nodup →
      (upd x.2).2 = .error e →
      stepObjects rootId upd (pre ++ x :: post) acc =
        ((pre.map fun p => (p.1, (upd p.2).1)) ++ (x.1, (upd x.2).1) :: post,
         acc ++ (pre.map fun p => (rootId (upd p.2).1, getOk (upd p.2).2)),
         some e) := by
  intro pre
  induction pre with
  | nil =>
    intro x post acc e _ _ _ hx
    obtain ⟨k, o⟩ := x
    simp only [List.nil_append, stepObjects, hx, List.map_nil,
      List.append_nil]
  | cons hd tl ih =>
    intro x post acc e hok hdisj hnd hx
    obtain ⟨k, o⟩ := hd
    have hok0 : ((upd o).2).isOk = true := hok (k, o) (List.mem_cons_self _ _)
    obtain ⟨snap, hsnap⟩ : ∃ s, (upd o).2 = .ok s := by
      cases hh : (upd o).2 with
      | ok s => exact ⟨s, rfl⟩
      | error e => rw [hh] at hok0; simp [Except.isOk, Except.toBool] at hok0
    have hnotin : rootId (upd o).1 ∉ acc.map Prod.fst :=
      hdisj (k, o) (List.mem_cons_self _ _)
    have hins : dictInsert acc (rootId (upd o).1) snap
        = acc ++ [(rootId (upd o).1, snap)] := by
      simp [dictInsert, hnotin]
    have hndt := hnd
    simp only [List.map_cons, List.nodup_cons] at hndt
    have ih2 := ih x post (acc ++ [(rootId (upd o).1, snap)]) e
      (fun p hp => hok p (List.mem_cons_of_mem _ hp))
      (by
        intro p hp
        simp only [List.map_append, List.mem_append, List.map_cons,
          List.map_nil, List.mem_singleton, not_or]
        refine ⟨hdisj p (List.mem_cons_of_mem _ hp), ?_⟩
        intro hbad
        exact hndt.1 (by
          rw [← hbad]
          exact List.mem_map_of_mem _ hp))
      hndt.2 hx
    simp only [List.cons_append, stepObjects, hsnap, hins, ih2]
    simp [ih2, hsnap, getOk, List.append_assoc]

/-! ## Claim C3 -/

/-- C3: when every owned object's update succeeds, one call to
`Graph.update` updates each currently-owned object exactly once and returns
the state `(object_count, object_states)` with one entry per object, keyed
by the (updated) objects' root ids; the aggregate is rebuilt from scratch —
the previous `object_states` does not appear in the result — so each key
corresponds to a currently-owned object. -/
theorem c3_update_all_ok {O : Type} (rootId : O → String)
    (upd : O → O × Except PyErr Snap) (g : GraphSt O)
    (hok : ∀ p ∈ g.nodes, ((upd p.2).2).isOk = true)
    (hnd : (g.nodes.map fun p => rootId (upd p.2).1).Nodup) :
    Graph.update rootId upd g =
      ({ nodes := g.nodes.map fun p => (p.1, (upd p.2).1),
         object_states :=
          g.nodes.map fun p => (rootId (upd p.2).1, getOk (upd p.2).2) },
       .ok (g.nodes.length,
        g.nodes.map fun p => (rootId (upd p.2).1, getOk (upd p.2).2))) := by
  have h := stepObjects_all_ok rootId upd g.nodes [] hok (by simp) hnd
  simp only [Graph.update, h]
  simp

/-- Witness for C3 on the concrete two-object graph `gAB`. -/
theorem c3_update_all_ok_witness :
    Graph.update Obj.root_id okUpd gAB =
      ({ nodes :=
          [(.str "a",
            { step_size := 2, clock := { step_size := 2, cycle := 1, step := 1 },
              id := { root := "a", temporal := "a.1.1" }, behaviorState := (),
              history := [{ step_size := 2, root_id := "a",
                            temporal_id := "a.1.1", cycle := 1, step := 1 }] }),
           (.str "b",
            { step_size := 2, clock := { step_size := 2, cycle := 1, step := 1 },
              id := { root := "b", temporal := "b.1.1" }, behaviorState := (),
              history := [{ step_size := 2, root_id := "b",
                            temporal_id := "b.1.1", cycle := 1, step := 1 }] })],
         object_states :=
          [("a", { step_size := 2, root_id := "a", temporal_id := "a.1.1",
                   cycle := 1, step := 1 }),
           ("b", { step_size := 2, root_id := "b", temporal_id := "b.1.1",
                   cycle := 1, step := 1 })] },
       .ok (2,
        [("a", { step_size := 2, root_id := "a", temporal_id := "a.1.1",
                 cycle := 1, step := 1 }),
         ("b", { step_size := 2, root_id := "b", temporal_id := "b.1.1",
                 cycle := 1, step := 1 })])) := by
  have h := c3_update_all_ok Obj.root_id okUpd gAB (by decide) (by decide)
  exact h.trans (by decide)

/-! ## Claim C2 -/

/-- Counterexample to C2 as stated: on the two-object graph `gFG` where
exactly the first object's collaborator raises, `Graph.update` does not
record the failure and continue — it propagates the exception (no
succeeded/failed result is produced), the non-failing object `objG` is
never stepped (its Clock did not advance), and nothing was recorded in
`object_states`. -/
theorem c2_counterexample :
    (Graph.update Obj.root_id flagUpd gFG).2 = .error .valueError ∧
    ((Graph.update Obj.root_id flagUpd gFG).1.nodes.map fun p => p.2.clock)
      = [{ step_size := 2, cycle := 1, step := 0 },
         { step_size := 2, cycle := 1, step := 0 }] ∧
    (Graph.update Obj.root_id flagUpd gFG).1.object_states = [] := by
  decide

/-- C2 amended: if one owned object's update raises, `Graph.update`
propagates that exception and aborts the tick: objects strictly before the
failing one in iteration order have been updated exactly once and recorded
in `object_states`, the failing object is left as its own `update`
returned it, objects after it are never stepped, and no succeeded/failed
mapping is returned (the previous `object_states` is still discarded). -/
theorem c2_update_failure_aborts {O : Type} (rootId : O → String)
    (upd : O → O × Except PyErr Snap) (pre post : List (PyKey O × O))
    (x : PyKey O × O) (sts : List (String × Snap)) (e : PyErr)
    (hok : ∀ p ∈ pre, ((upd p.2).2).isOk = true)
    (hnd : (pre.map fun p => rootId (upd p.2).1).Nodup)
    (hx : (upd x.2).2 = .error e) :
    Graph.update rootId upd { nodes := pre ++ x :: post, object_states := sts } =
      ({ nodes :=
          (pre.map fun p => (p.1, (upd p.2).1)) ++ (x.1, (upd x.2).1) :: post,
         object_states :=
          pre.map fun p => (rootId (upd p.2).1, getOk (upd p.2).2) },
       .error e) := by
  have h := stepObjects_err rootId upd pre x post [] e hok (by simp) hnd hx
  simp only [Graph.update, h]
  simp

/-- Witness for the amended C2: the failing object `objF` heads `gFG`, the
object `objG` after it is untouched. -/
theorem c2_update_failure_aborts_witness :
    Graph.update Obj.root_id flagUpd
        { nodes := [(.str "f", objF), (.str "g", objG)], object_states := [] } =
      ({ nodes := [(.str "f", objF), (.str "g", objG)], object_states := [] },
       .error .valueError) := by
  have h := c2_update_failure_aborts Obj.root_id flagUpd []
    [(.str "g", objG)] (.str "f", objF) [] .valueError
    (by simp) (by simp) (by decide)
  exact h.trans (by decide)

/-! ## Claim C7 -/

/-- Counterexample to C7 as stated: adding `objR2`, whose root `"r"` is
already present in `gR`, raises no error (the call returns a graph) and
silently replaces the stored object — the membership is not left
unchanged. -/
theorem c7_counterexample :
    Graph.add_object Obj.root_id gR objR2
        = { nodes := [(.str "r", objR2)], object_states := [] } ∧
    Graph.add_object Obj.root_id gR objR2 ≠ gR := by
  decide

/-- C7 amended: `add_object` with an already-present root never fails;
`networkx.add_node` updates the existing node in place, so the key set is
unchanged, the stored object under that root is silently replaced by the
new one, and every other node is untouched. -/
theorem c7_add_object_replaces {O : Type} [DecidableEq O]
    (rootId : O → String) (g : GraphSt O) (o : O)
    (h : PyKey.str (rootId o) ∈ g.nodes.map Prod.fst) :
    (Graph.add_object rootId g o).nodes.map Prod.fst
        = g.nodes.map Prod.fst ∧
    (∀ p ∈ (Graph.add_object rootId g o).nodes,
        p.1 = PyKey.str (rootId o) → p.2 = o) ∧
    (∀ p ∈ (Graph.add_object rootId g o).nodes,
        p.1 ≠ PyKey.str (rootId o) → p ∈ g.nodes) ∧
    (Graph.add_object rootId g o).object_states = g.object_states := by
  simp only [Graph.add_object, addNode, if_pos h]
  refine ⟨?_, ?_, ?_, by trivial⟩
  · rw [List.map_map]
    apply List.map_congr_left
    intro p _
    by_cases hc : p.1 = PyKey.str (rootId o)
    · simp [hc]
    · simp [hc]
  · intro p hp hpk
    obtain ⟨q, _, hqe⟩ := List.mem_map.mp hp
    by_cases hc : q.1 = PyKey.str (rootId o)
    · rw [if_pos hc] at hqe
      rw [← hqe]
    · rw [if_neg hc] at hqe
      exact absurd (hqe ▸ hpk) hc
  · intro p hp hpk
    obtain ⟨q, hq, hqe⟩ := List.mem_map.mp hp
    by_cases hc : q.1 = PyKey.str (rootId o)
    · rw [if_pos hc] at hqe
      exact absurd (hqe ▸ rfl) hpk
    · rw [if_neg hc] at hqe
      exact hqe ▸ hq

/-- Witness for the amended C7 on the concrete graph `gR`. -/
theorem c7_add_object_replaces_witness :
    (Graph.add_object Obj.root_id gR objR2).nodes.map Prod.fst
        = gR.nodes.map Prod.fst ∧
    ∀ p ∈ (Graph.add_object Obj.root_id gR objR2).nodes,
      p.1 = PyKey.str (Obj.root_id objR2) → p.2 = objR2 := by
  have h := c7_add_object_replaces Obj.root_id gR objR2 (by decide)
  exact ⟨h.1, h.2.1⟩

/-! ## Claim C8 -/

/-- Counterexample to C8 as stated: `objR1` was added to the empty graph by
`add_object` (which keys the node by the root string `"r"`), yet
`remove_object` on that very object fails — `remove_node` is passed the
object itself, which is not a node key. -/
theorem c8_counterexample :
    Graph.remove_object
        (Graph.add_object Obj.root_id
          { nodes := [], object_states := [] } objR1) objR1
      = .error .networkXError := by
  decide

/-- C8 amended: `remove_object(x)` fails with the unknown-node error
exactly when `x` itself is not a node key; since `add_object` keys every
node by a root-id string, removing a previously added object by passing
the object always fails on a string-keyed graph, while removing the node
under the root-id string key itself succeeds and removes exactly that
node. -/
theorem addNode_keys {O : Type} [DecidableEq O] (g : GraphSt O) (k : PyKey O)
    (o : O) :
    ∀ k2 ∈ (addNode g k o).nodes.map Prod.fst,
      k2 ∈ g.nodes.map Prod.fst ∨ k2 = k := by
  intro k2 hk2
  simp only [addNode] at hk2
  by_cases hmem : k ∈ g.nodes.map Prod.fst
  · rw [if_pos hmem] at hk2
    simp only [List.map_map] at hk2
    obtain ⟨q, hq, hqe⟩ := List.mem_map.mp hk2
    by_cases hc : q.1 = k
    · right
      rw [← hqe]
      simp [Function.comp, hc]
    · left
      have hfst : (Prod.fst ∘ fun p => if p.1 = k then (k, o) else p) q = q.1 := by
        simp [Function.comp, hc]
      rw [hfst] at hqe
      exact hqe ▸ List.mem_map_of_mem Prod.fst hq
  · rw [if_neg hmem] at hk2
    simp only [List.map_append, List.mem_append, List.map_cons, List.map_nil,
      List.mem_singleton] at hk2
    exact hk2

theorem addNode_key_mem {O : Type} [DecidableEq O] (g : GraphSt O)
    (k : PyKey O) (o : O) : k ∈ (addNode g k o).nodes.map Prod.fst := by
  simp only [addNode]
  by_cases hmem : k ∈ g.nodes.map Prod.fst
  · rw [if_pos hmem]
    obtain ⟨q, hq, hqe⟩ := List.mem_map.mp hmem
    rw [List.map_map]
    refine List.mem_map.mpr ⟨q, hq, ?_⟩
    simp [Function.comp, hqe]
  · rw [if_neg hmem]
    simp

theorem addNode_object_states {O : Type} [DecidableEq O] (g : GraphSt O)
    (k : PyKey O) (o : O) :
    (addNode g k o).object_states = g.object_states := by
  simp only [addNode]
  split <;> rfl

/-- C8 amended: `remove_object(x)` fails with the unknown-node error
exactly when `x` itself is not a node key; since `add_object` keys every
node by a root-id string, removing a previously added object by passing
the object always fails on a string-keyed graph, while removing the node
under the root-id string key itself succeeds and removes exactly that
node. -/
theorem c8_remove_object_semantics {O : Type} [DecidableEq O]
    (rootId : O → String) (g : GraphSt O) (x o : O)
    (hstr : ∀ k ∈ g.nodes.map Prod.fst, ∃ s, k = PyKey.str s) :
    (Graph.remove_object g x = .error .networkXError ↔
        PyKey.obj x ∉ g.nodes.map Prod.fst) ∧
    Graph.remove_object (Graph.add_object rootId g o) o
        = .error .networkXError ∧
    removeNode (Graph.add_object rootId g o) (.str (rootId o)) =
      .ok { nodes := (Graph.add_object rootId g o).nodes.filter
              fun p => p.1 != PyKey.str (rootId o),
            object_states := g.object_states } := by
  have keysStr : ∀ k ∈ (Graph.add_object rootId g o).nodes.map Prod.fst,
      ∃ s, k = PyKey.str s := by
    intro k hk
    simp only [Graph.add_object] at hk
    rcases addNode_keys g (PyKey.str (rootId o)) o k hk with h | h
    · exact hstr k h
    · exact ⟨rootId o, h⟩
  have hobjnot : PyKey.obj o
      ∉ (Graph.add_object rootId g o).nodes.map Prod.fst := by
    intro hmem
    obtain ⟨s, hs⟩ := keysStr _ hmem
    exact PyKey.noConfusion hs
  refine ⟨?_, ?_, ?_⟩
  · constructor
    · intro h hmem
      simp [Graph.remove_object, removeNode, hmem] at h
    · intro hmem
      simp [Graph.remove_object, removeNode, hmem]
  · simp [Graph.remove_object, removeNode, hobjnot]
  · have keyadd := addNode_key_mem g (PyKey.str (rootId o)) o
    simp only [Graph.add_object]
    simp only [removeNode, if_pos keyadd]
    rw [addNode_object_states]

/-- Witness for the amended C8 on the concrete graph `gR`. -/
theorem c8_remove_object_semantics_witness :
    Graph.remove_object (Graph.add_object Obj.root_id gR objR2) objR2
      = .error .networkXError := by
  have h := c8_remove_object_semantics Obj.root_id gR objR2 objR2
    (by intro k hk; simp only [gR] at hk; simp at hk; exact ⟨"r", hk⟩)
  exact h.2.1
